import Mathlib

/-!
Verification of the PMTiles Lambda tile server (src/index.mjs).

The file shallowly embeds the request-handling code of `src/index.mjs`:
the path parser (the two regexes `TILE_PATH_RE` / `TILEJSON_PATH_RE` and
`parsePath`), the response builder (`makeResponse`), the tile-type table
(`tileTypeToInfo`), and the Lambda `handler` with its tile and TileJSON
branches.  External collaborators (the bundled `pmtiles` reader, `zlib`,
`crypto`, base64, JSON serialisation) are passed in as explicit function
parameters or behaviour records, so theorems quantify over them.
Bytes are modelled as `List Nat`, JS strings as Lean `String`.
-/

namespace PmtilesLambda

/-! ## Path parsing

`TILE_PATH_RE = ^\/(?<name>[0-9a-zA-Z\/!\-_\.\*'()]+)\/(?<z>\d+)\/(?<x>\d+)\/(?<y>\d+)\.(?<ext>[a-z]+)$`
`TILEJSON_PATH_RE = ^\/(?<name>[0-9a-zA-Z\/!\-_\.\*'()]+)\.json$`

Because `z`, `x`, `y`, `ext` cannot contain `/`, any match of the tile
regex must take the last three `/`-separated segments of the path as
`z`, `x`, `y.ext`, and the name is everything in between the leading
slash and those three segments; inside the last segment, `y` is digits
and `ext` lowercase letters, neither containing `.`, so the segment has
exactly one dot and the split is forced.  Hence regex matching (greedy
with backtracking) has at most one possible capture assignment, and the
segment-wise parser below computes exactly it.  Similarly any match of
the TileJSON regex is forced to take `name` = everything before the
trailing literal `.json`. -/

/-- The character class `[0-9a-zA-Z\/!\-_\.\*'()]` of both regexes.
`Char.ofNat 39` is the apostrophe. -/
def nameChar (c : Char) : Bool :=
  c.isDigit || c.isLower || c.isUpper ||
  c == '/' || c == '!' || c == '-' || c == '_' || c == '.' ||
  c == '*' || c == Char.ofNat 39 || c == '(' || c == ')'

/-- `\d+` : nonempty, all decimal digits. -/
def isDigitStr (s : List Char) : Bool :=
  !s.isEmpty && s.all (fun c => c.isDigit)

/-- `[a-z]+` : nonempty, all lowercase ASCII letters. -/
def isLowerStr (s : List Char) : Bool :=
  !s.isEmpty && s.all (fun c => c.isLower)

/-- Prepend a character to the first segment of a split result. -/
def consFirst (c : Char) : List (List Char) → List (List Char)
  | [] => [[c]]
  | h :: t => (c :: h) :: t

/-- Split a character list at every occurrence of `sep`
(the analogue of JS `string.split(sep)`). -/
def splitOnChar (sep : Char) : List Char → List (List Char)
  | [] => [[]]
  | c :: rest =>
    if c = sep then [] :: splitOnChar sep rest
    else consFirst c (splitOnChar sep rest)

/-- Re-join segments with `/` (inverse of `splitOnChar` at slash). -/
def joinSlash : List (List Char) → List Char
  | [] => []
  | [s] => s
  | s :: rest => s ++ '/' :: joinSlash rest

/-- JS `Number(...)` on a string of decimal digits. -/
def digitsVal (s : List Char) : Nat :=
  s.foldl (fun a c => a * 10 + (c.toNat - 48)) 0

/-- The typed result of `parsePath` in `src/index.mjs`
(`{type:"tile",...}` / `{type:"tilejson",...}` / `null`). -/
inductive ParsedIntent where
  | tile (name : String) (z x y : Nat) (ext : String)
  | tilejson (name : String)
deriving DecidableEq

/-- Matching of `TILE_PATH_RE` on the characters after the leading `/`:
the last three slash-separated segments must be `z`, `x`, `y.ext`
with `z`,`x`,`y` digits and `ext` lowercase; the (possibly
slash-containing) name is everything before them. -/
def parseTileCore (tail : List Char) :
    Option (List Char × List Char × List Char × List Char × List Char) :=
  match (splitOnChar '/' tail).reverse with
  | yext :: xs :: zs :: nameRev =>
    let name := joinSlash nameRev.reverse
    match splitOnChar '.' yext with
    | [ys, es] =>
      if !name.isEmpty && name.all nameChar && isDigitStr zs
          && isDigitStr xs && isDigitStr ys && isLowerStr es then
        some (name, zs, xs, ys, es)
      else none
    | _ => none
  | _ => none

/-- Matching of `TILEJSON_PATH_RE` on the characters after the leading
`/`: a nonempty name over the class followed by the literal `.json`. -/
def parseJsonCore (tail : List Char) : Option (List Char) :=
  match tail.reverse with
  | 'n' :: 'o' :: 's' :: 'j' :: '.' :: nameRev =>
    let name := nameRev.reverse
    if !name.isEmpty && name.all nameChar then some name else none
  | _ => none

/-- `parsePath` of `src/index.mjs`: try the tile regex, then the
TileJSON regex, else `null`. -/
def parsePath (path : String) : Option ParsedIntent :=
  match path.data with
  | [] => none
  | c :: tail =>
    if c = '/' then
      match parseTileCore tail with
      | some (n, zs, xs, ys, es) =>
        some (.tile (String.mk n) (digitsVal zs) (digitsVal xs) (digitsVal ys) (String.mk es))
      | none =>
        match parseJsonCore tail with
        | some n => some (.tilejson (String.mk n))
        | none => none
    else none

/-! ## Handler embedding

The Lambda `handler` of `src/index.mjs`, with its collaborators made
explicit: the environment variables, the inbound event, the injected
external functions (`zlib.gzipSync`, sha-256 hex digest, base64,
`JSON.stringify` of the TileJSON document), and the behaviour of the
`PMTiles` reader for the archive named by the path (`getHeader`,
`getMetadata`, `getZxy`), each returning `Except` to model thrown JS
errors.  The handler result also records which reader operations were
invoked, so "no further reads are issued" claims are statable. -/

/-- A thrown JS error, as observed by the catch-all
(`err.name === "AccessDenied"` is the only field inspected). -/
structure JsError where
  name : String
  message : String
deriving DecidableEq

/-- Row of the tile-type table. -/
structure TileTypeInfo where
  ext : String
  contentType : String
deriving DecidableEq

/-- `tileTypeToInfo` of `src/index.mjs`: PMTiles spec codes
1=MVT, 2=PNG, 3=JPEG, 4=WEBP, 5=AVIF; anything else falls back to an
empty extension and `application/octet-stream`. -/
def tileTypeToInfo (tileType : Nat) : TileTypeInfo :=
  match tileType with
  | 1 => ⟨".mvt", "application/vnd.mapbox-vector-tile"⟩
  | 2 => ⟨".png", "image/png"⟩
  | 3 => ⟨".jpg", "image/jpeg"⟩
  | 4 => ⟨".webp", "image/webp"⟩
  | 5 => ⟨".avif", "image/avif"⟩
  | _ => ⟨"", "application/octet-stream"⟩

/-- The decoded PMTiles archive header, as used by the handler
(coordinates modelled as integers; no claim depends on their values). -/
structure ArchiveHeader where
  tileType : Nat
  minZoom : Nat
  maxZoom : Nat
  minLon : Int
  minLat : Int
  maxLon : Int
  maxLat : Int
  centerLon : Int
  centerLat : Int
  centerZoom : Nat
deriving DecidableEq

/-- The pass-through metadata fields read by `buildTileJson`
(each may be absent; values abstracted to strings). -/
structure Metadata where
  vector_layers : Option String
  attribution : Option String
  description : Option String
  name : Option String
  version : Option String
deriving DecidableEq

/-- `{}` — the fallback when `archive.getMetadata()` rejects. -/
def Metadata.empty : Metadata := ⟨none, none, none, none, none⟩

/-- Result object of `archive.getZxy` when a tile exists. -/
structure TileResult where
  data : List Nat
deriving DecidableEq

/-- The TileJSON document built by `buildTileJson`. -/
structure TileJson where
  tilejson : String
  scheme : String
  tiles : List String
  vector_layers : Option String
  attribution : Option String
  description : Option String
  name : Option String
  version : Option String
  bounds : List Int
  center : List Int
  minzoom : Nat
  maxzoom : Nat
deriving DecidableEq

/-- The environment variables read by the handler. -/
structure Env where
  bucket : Option String
  pmtilesPath : Option String
  publicHostname : Option String
  cors : Option String
  cacheControl : Option String
deriving DecidableEq

/-- The inbound Lambda event fields read by the handler:
`event.pathParameters?.proxy`, `event.rawPath`, `event.headers`. -/
structure LambdaEvent where
  pathParametersProxy : Option String
  rawPath : Option String
  headers : List (String × String)
deriving DecidableEq

/-- Injected external functions (deterministic collaborators):
`zlib.gzipSync`, the sha-256 hex digest of `crypto`, base64 encoding,
and `JSON.stringify` of the TileJSON document. -/
structure ExtFns where
  gzipSync : List Nat → List Nat
  sha256hex : List Nat → String
  base64 : List Nat → String
  stringifyTileJson : TileJson → String

/-- Behaviour of the `PMTiles` reader resolved for the archive named in
the path; `Except` models a rejected promise / thrown error, and
`getZxy` returning `none` models an absent tile. -/
structure ArchiveBehavior where
  getHeader : Except JsError ArchiveHeader
  getMetadata : Except JsError Metadata
  getZxy : Nat → Nat → Nat → Except JsError (Option TileResult)

/-- JS truthiness of an optional string: `undefined` and `""` are falsy. -/
def truthy : Option String → Option String
  | some s => if s = "" then none else some s
  | none => none

/-- Lookup of a key in a JS-object-as-association-list. -/
def getHeaderVal : List (String × String) → String → Option String
  | [], _ => none
  | p :: rest, k => if p.1 = k then some p.2 else getHeaderVal rest k

/-- JS `obj[k] = v` on a header object: overwrite in place, or append. -/
def setHeader : List (String × String) → String → String → List (String × String)
  | [], k, v => [(k, v)]
  | p :: rest, k, v => if p.1 = k then (k, v) :: rest else p :: setHeader rest k v

/-- The Lambda proxy response shape. -/
structure LambdaResponse where
  statusCode : Nat
  body : String
  headers : List (String × String)
  isBase64Encoded : Bool
deriving DecidableEq

/-- `makeResponse` of `src/index.mjs`: wraps status/body/headers and, if
the `CORS` environment variable is truthy, adds
`Access-Control-Allow-Origin` to the headers. -/
def makeResponse (env : Env) (statusCode : Nat) (body : String)
    (headers : List (String × String)) (isBase64Encoded : Bool) : LambdaResponse :=
  let hs :=
    match truthy env.cors with
    | some c => setHeader headers "Access-Control-Allow-Origin" c
    | none => headers
  ⟨statusCode, body, hs, isBase64Encoded⟩

/-- The catch-all at the bottom of `handler`:
`AccessDenied` → 403, anything else → 500. -/
def errResponse (env : Env) (e : JsError) : LambdaResponse :=
  if e.name = "AccessDenied" then
    makeResponse env 403 "Bucket access unauthorized" [] false
  else
    makeResponse env 500 "Internal server error" [] false

/-- The CloudFront host-hint header lookup in `buildTileJson`
(`event.headers?.["x-distribution-domain-name"] || event.headers?.["X-Distribution-Domain-Name"]`). -/
def cfDomain (event : LambdaEvent) : Option String :=
  match truthy (getHeaderVal event.headers "x-distribution-domain-name") with
  | some v => some v
  | none => truthy (getHeaderVal event.headers "X-Distribution-Domain-Name")

/-- `process.env.PUBLIC_HOSTNAME || cfDomain`, with the subsequent
`if (!host)` truthiness check folded in. -/
def hostFor (env : Env) (event : LambdaEvent) : Option String :=
  match truthy env.publicHostname with
  | some h => some h
  | none => cfDomain event

/-- Path determination at the top of `handler`: API Gateway proxy shape
(`event.pathParameters.proxy`, flag `true`) takes precedence over the
Function-URL shape (`event.rawPath`, flag `false`). -/
def pathOf (event : LambdaEvent) : Option (String × Bool) :=
  match truthy event.pathParametersProxy with
  | some proxy => some ("/" ++ proxy, true)
  | none =>
    match truthy event.rawPath with
    | some p => some (p, false)
    | none => none

/-- The reader operations a request actually invoked. -/
inductive ArchiveCall where
  | getHeaderCall
  | getMetadataCall
  | getZxyCall (z x y : Nat)
deriving DecidableEq

/-- A response together with the trace of reader operations invoked. -/
structure HandlerResult where
  response : LambdaResponse
  calls : List ArchiveCall
deriving DecidableEq

/-- The extension-validation condition of the tile branch:
`tileType === 1 && ext === "pbf"` is allowed as a special case,
otherwise a nonempty archive extension differing from `"." + ext`
rejects; an empty archive extension (unrecognized tile type) never
rejects. -/
def extAccepted (tileType : Nat) (ext : String) : Bool :=
  if tileType = 1 ∧ ext = "pbf" then true
  else if (tileTypeToInfo tileType).ext ≠ "" ∧ "." ++ ext ≠ (tileTypeToInfo tileType).ext then false
  else true

/-- The tile branch of `handler` (zoom bounds check, extension
validation, `getZxy`, ETag/headers, transport-dependent gzip). -/
def handleTile (env : Env) (extf : ExtFns) (arch : ArchiveBehavior)
    (came : Bool) (z x y : Nat) (ext : String) : HandlerResult :=
  match arch.getHeader with
  | .error e => ⟨errResponse env e, [.getHeaderCall]⟩
  | .ok header =>
    if z < header.minZoom ∨ z > header.maxZoom then
      ⟨makeResponse env 404 "" [] false, [.getHeaderCall]⟩
    else
      let info := tileTypeToInfo header.tileType
      if extAccepted header.tileType ext then
        match arch.getZxy z x y with
        | .error e => ⟨errResponse env e, [.getHeaderCall, .getZxyCall z x y]⟩
        | .ok none => ⟨makeResponse env 204 "" [] false, [.getHeaderCall, .getZxyCall z x y]⟩
        | .ok (some t) =>
          let tileBytes := t.data
          let etag := "\"" ++ extf.sha256hex tileBytes ++ "\""
          let headers0 :=
            [("Content-Type", info.contentType),
             ("Cache-Control", (truthy env.cacheControl).getD "public, max-age=86400"),
             ("ETag", etag)]
          if came then
            ⟨makeResponse env 200 (extf.base64 (extf.gzipSync tileBytes))
                (setHeader headers0 "Content-Encoding" "gzip") true,
             [.getHeaderCall, .getZxyCall z x y]⟩
          else
            ⟨makeResponse env 200 (extf.base64 tileBytes) headers0 true,
             [.getHeaderCall, .getZxyCall z x y]⟩
      else
        ⟨makeResponse env 400
            ("Bad request: requested ." ++ ext ++ " but archive has type " ++ info.ext) [] false,
         [.getHeaderCall]⟩

/-- The TileJSON branch of `handler` (`buildTileJson` inlined; a
metadata failure degrades to `{}`; a missing host throws a plain
`Error`, which the catch-all maps below). -/
def handleTileJson (env : Env) (extf : ExtFns) (arch : ArchiveBehavior)
    (event : LambdaEvent) (name : String) : HandlerResult :=
  match arch.getHeader with
  | .error e => ⟨errResponse env e, [.getHeaderCall]⟩
  | .ok header =>
    let metadata := match arch.getMetadata with
      | .ok m => m
      | .error _ => Metadata.empty
    let info := tileTypeToInfo header.tileType
    match hostFor env event with
    | none =>
      ⟨errResponse env
          ⟨"Error", "No PUBLIC_HOSTNAME or x-distribution-domain-name available for TileJSON"⟩,
       [.getHeaderCall, .getMetadataCall]⟩
    | some host =>
      let baseUrl := "https://" ++ host ++ "/" ++ name
      let tj : TileJson :=
        ⟨"3.0.0", "xyz",
         [baseUrl ++ "/\x7bz\x7d/\x7bx\x7d/\x7by\x7d" ++ info.ext],
         metadata.vector_layers, metadata.attribution, metadata.description,
         metadata.name, metadata.version,
         [header.minLon, header.minLat, header.maxLon, header.maxLat],
         [header.centerLon, header.centerLat, (header.centerZoom : Int)],
         header.minZoom, header.maxZoom⟩
      ⟨makeResponse env 200 (extf.stringifyTileJson tj)
          [("Content-Type", "application/json")] false,
       [.getHeaderCall, .getMetadataCall]⟩

/-- The exported Lambda `handler` of `src/index.mjs`. -/
def handler (env : Env) (extf : ExtFns) (arch : ArchiveBehavior)
    (event : LambdaEvent) : HandlerResult :=
  match pathOf event with
  | none => ⟨makeResponse env 500 "Invalid event configuration" [] false, []⟩
  | some (path, came) =>
    match parsePath path with
    | none => ⟨makeResponse env 400 "Invalid tile URL" [] false, []⟩
    | some (.tilejson name) => handleTileJson env extf arch event name
    | some (.tile _name z x y ext) => handleTile env extf arch came z x y ext

/-! ## Staleness retry (C1)

`S3PmtilesSource.getBytes` issues a conditional S3 range read
(`IfMatch: etag`) whenever the caller supplies the ETag observed by an
earlier read of the same logical access, and propagates the conflict as
a thrown error.  The multi-step access driver that consumes it — the
bundled PMTiles reader — is part of this repository only as a bundle
(described in the repository notes), not as source under `src/`. -/

/-- Modelled from the spec: the remote object as seen over time.
`versionAt t` is the object identity (ETag) current at time `t`;
`chunkOf v t` the bytes a read at time `t` returns under version `v`.
The PMTiles-reader side of the staleness protocol is missing from
`src/`, so the multi-step access below follows §4.1/§7 of the spec:
a first unconditional read fixes the expected ETag, every later read
of the same logical access is conditional on it, and a mismatch fails
the composite access as a staleness, never mixing versions. -/
structure RemoteStore where
  versionAt : Nat → Nat
  chunkOf : Nat → Nat → List Nat

/-- The conditional follow-up reads of one logical access: `k` reads at
times `t, t+1, …`, each required to observe version `e`; the whole
sequence fails (staleness) if any single read observes a conflict. -/
def condReads (st : RemoteStore) (e : Nat) : Nat → Nat → Option (List (Nat × List Nat))
  | _, 0 => some []
  | t, k + 1 =>
    if st.versionAt t = e then
      match condReads st e (t + 1) k with
      | some rest => some ((st.versionAt t, st.chunkOf (st.versionAt t) t) :: rest)
      | none => none
    else none

/-- One whole logical access starting at time `t0` with `steps`
conditional follow-up reads: the header read at `t0` fixes the expected
ETag `e`, then every follow-up must still observe `e`. -/
def runAccess (st : RemoteStore) (t0 : Nat) (steps : Nat) :
    Option (Nat × List (Nat × List Nat)) :=
  (condReads st (st.versionAt t0) (t0 + 1) steps).map
    (fun cs => (st.versionAt t0, (st.versionAt t0, st.chunkOf (st.versionAt t0) t0) :: cs))

/-- Outcome of one request: either a response assembled from
version-tagged chunks, or `UpstreamUnavailable`; `attempts` counts the
logical accesses performed. -/
inductive RequestOutcome where
  | served (version : Nat) (chunks : List (Nat × List Nat)) (attempts : Nat)
  | upstreamUnavailable (attempts : Nat)
deriving DecidableEq

/-- The attempt count of an outcome. -/
def RequestOutcome.attempts : RequestOutcome → Nat
  | .served _ _ a => a
  | .upstreamUnavailable a => a

/-- Modelled from the spec: the per-request retry policy of §7 — the
whole logical access is retried exactly once with a fresh header on a
staleness, and a second staleness is surfaced as UpstreamUnavailable. -/
def handleLogical (st : RemoteStore) (steps : Nat) : RequestOutcome :=
  match runAccess st 0 steps with
  | some (v, cs) => .served v cs 1
  | none =>
    match runAccess st (steps + 1) steps with
    | some (v, cs) => .served v cs 2
    | none => .upstreamUnavailable 2

/-! ## Archive resolution and fetch deduplication (C2)

`getArchive(name)` in `src/index.mjs` constructs a **fresh**
`S3PmtilesSource` and a **fresh** `PMTiles` instance on every call; the
only sharing across calls is the module-level `SharedPromiseCache`
passed to every instance.  Object identity of `new` is modelled by an
allocation counter. -/

/-- A `PMTiles` instance as constructed by `getArchive`: a fresh object
(identity `instId`) wrapping a source for `archiveName` and the shared
module-level promise cache. -/
structure PMTilesInstance where
  instId : Nat
  archiveName : String
deriving DecidableEq

/-- `getArchive` of `src/index.mjs`: allocates a fresh source and a
fresh `PMTiles` instance (sharing only the module-level cache), and
returns it with the advanced allocation counter. -/
def getArchive (name : String) (nextObjId : Nat) : PMTilesInstance × Nat :=
  (⟨nextObjId, name⟩, nextObjId + 1)

/-- Modelled from the spec: the `SharedPromiseCache` the instances
share (bundled PMTiles code, not under `src/`).  Per §4.2/§5, a caller
resolving a key first consults the cache; a hit returns the already
registered promise, a miss registers a fresh promise for the key
**synchronously** (before any suspension) and starts the single
fetch-and-populate sequence for it.  `entries` maps keys to promise
ids, `fetchesStarted` records each started fetch sequence.  Because
the check-and-register step is synchronous on a single-threaded event
loop, concurrent callers' acquisitions serialize, so any interleaving
of two callers is one of the two sequential orders. -/
structure PromiseCache where
  entries : List (String × Nat)
  nextPid : Nat
  fetchesStarted : List String
deriving DecidableEq

/-- One caller's atomic check-and-register step on the shared cache:
returns the promise id the caller will await, and the new cache state. -/
def cacheAcquire (st : PromiseCache) (key : String) : Nat × PromiseCache :=
  match st.entries.find? (fun p => p.1 = key) with
  | some p => (p.2, st)
  | none =>
    (st.nextPid, ⟨(key, st.nextPid) :: st.entries, st.nextPid + 1, key :: st.fetchesStarted⟩)

/-! ## Shared concrete sample values (used by witnesses) -/

/-- A sample environment: CORS configured as `*`, public hostname set. -/
def envSample : Env :=
  ⟨some "bucket", none, some "tiles.example.com", some "*", none⟩

/-- A sample environment with no CORS, no public hostname. -/
def envBare : Env := ⟨some "bucket", none, none, none, none⟩

/-- Sample injected external functions (arbitrary concrete values). -/
def extSample : ExtFns :=
  ⟨fun b => 31 :: 139 :: b,
   fun b => String.mk (b.map (fun n => Char.ofNat (97 + n % 26))),
   fun b => String.mk (b.map (fun n => Char.ofNat (65 + n % 26))),
   fun tj => tj.tilejson⟩

/-- A sample vector-archive header (tile type 1, zoom 0–14). -/
def headerVec : ArchiveHeader := ⟨1, 0, 14, -180, -85, 180, 85, 0, 0, 3⟩

/-- A sample archive behaviour over `headerVec` with one tile present
everywhere. -/
def archVec : ArchiveBehavior :=
  ⟨.ok headerVec, .ok Metadata.empty, fun _ _ _ => .ok (some ⟨[7, 7, 7]⟩)⟩

/-- A sample archive whose header declares the unrecognized tile type 6. -/
def archOdd : ArchiveBehavior :=
  ⟨.ok ⟨6, 0, 14, -180, -85, 180, 85, 0, 0, 3⟩, .ok Metadata.empty,
   fun _ _ _ => .ok (some ⟨[1, 2, 3]⟩)⟩

/-- A sample Function-URL event for a tile path. -/
def evTileRaw : LambdaEvent := ⟨none, some "/demo/1/2/3.mvt", []⟩

/-- A sample API-Gateway-proxy event for the same tile. -/
def evTileApi : LambdaEvent := ⟨some "demo/1/2/3.mvt", none, []⟩

/-- A sample Function-URL event for a TileJSON path. -/
def evJsonBare : LambdaEvent := ⟨none, some "/demo.json", []⟩

/-- A sample tile event whose zoom 20 exceeds `headerVec.maxZoom`. -/
def evTileHigh : LambdaEvent := ⟨none, some "/demo/20/2/3.mvt", []⟩

/-- A sample tile event with an extension no table row matches. -/
def evTileFoo : LambdaEvent := ⟨none, some "/demo/1/2/3.foo", []⟩

/-! ## Parser lemmas -/

theorem consFirst_ne_nil (c : Char) (l : List (List Char)) : consFirst c l ≠ [] := by
  cases l <;> simp [consFirst]

theorem splitOnChar_ne_nil (sep : Char) (l : List Char) : splitOnChar sep l ≠ [] := by
  induction l with
  | nil => simp [splitOnChar]
  | cons c r ih =>
    simp only [splitOnChar]
    split
    · simp
    · exact consFirst_ne_nil c _

theorem consFirst_append (c : Char) (l m : List (List Char)) (h : l ≠ []) :
    consFirst c (l ++ m) = consFirst c l ++ m := by
  cases l with
  | nil => exact absurd rfl h
  | cons a b => simp [consFirst]

/-- Splitting distributes over an occurrence of the separator. -/
theorem splitOnChar_append_sep (sep : Char) (a b : List Char) :
    splitOnChar sep (a ++ sep :: b) = splitOnChar sep a ++ splitOnChar sep b := by
  induction a with
  | nil => simp [splitOnChar]
  | cons c a ih =>
    simp only [List.cons_append, splitOnChar]
    split
    · simp [ih]
    · simp only [List.append_eq]
      rw [ih, consFirst_append c _ _ (splitOnChar_ne_nil sep a)]

/-- A separator-free list splits to itself. -/
theorem splitOnChar_eq_single (sep : Char) (l : List Char) (h : ∀ c ∈ l, c ≠ sep) :
    splitOnChar sep l = [l] := by
  induction l with
  | nil => rfl
  | cons c r ih =>
    simp only [splitOnChar]
    rw [if_neg (h c (by simp)), ih (fun d hd => h d (by simp [hd]))]
    rfl

theorem joinSlash_consFirst (c : Char) (l : List (List Char)) (h : l ≠ []) :
    joinSlash (consFirst c l) = c :: joinSlash l := by
  cases l with
  | nil => exact absurd rfl h
  | cons s t =>
    cases t with
    | nil => rfl
    | cons u v => rfl

theorem joinSlash_cons (s : List Char) (l : List (List Char)) (h : l ≠ []) :
    joinSlash (s :: l) = s ++ '/' :: joinSlash l := by
  cases l with
  | nil => exact absurd rfl h
  | cons u v => rfl

/-- `joinSlash` inverts `splitOnChar '/'`. -/
theorem joinSlash_splitOnChar (l : List Char) : joinSlash (splitOnChar '/' l) = l := by
  induction l with
  | nil => rfl
  | cons c r ih =>
    simp only [splitOnChar]
    split
    · rename_i hc
      rw [joinSlash_cons _ _ (splitOnChar_ne_nil _ r), ih, hc]
      rfl
    · rw [joinSlash_consFirst c _ (splitOnChar_ne_nil _ r), ih]

theorem digit_ne_slash {c : Char} (h : c.isDigit = true) : c ≠ '/' := by
  intro he
  rw [he] at h
  exact absurd h (by decide)

theorem digit_ne_dot {c : Char} (h : c.isDigit = true) : c ≠ '.' := by
  intro he
  rw [he] at h
  exact absurd h (by decide)

theorem lower_ne_slash {c : Char} (h : c.isLower = true) : c ≠ '/' := by
  intro he
  rw [he] at h
  exact absurd h (by decide)

theorem lower_ne_dot {c : Char} (h : c.isLower = true) : c ≠ '.' := by
  intro he
  rw [he] at h
  exact absurd h (by decide)

theorem no_sep_of_digitStr {s : List Char} (h : isDigitStr s = true) :
    ∀ c ∈ s, c ≠ '/' := by
  intro c hc
  have hall : s.all (fun c => c.isDigit) = true := by
    simp [isDigitStr] at h
    exact List.all_eq_true.mpr (fun x hx => by simpa using h.2 x hx)
  exact digit_ne_slash (List.all_eq_true.mp hall c hc)

theorem no_dot_of_digitStr {s : List Char} (h : isDigitStr s = true) :
    ∀ c ∈ s, c ≠ '.' := by
  intro c hc
  have hall : s.all (fun c => c.isDigit) = true := by
    simp [isDigitStr] at h
    exact List.all_eq_true.mpr (fun x hx => by simpa using h.2 x hx)
  exact digit_ne_dot (List.all_eq_true.mp hall c hc)

theorem no_sep_of_lowerStr {s : List Char} (h : isLowerStr s = true) :
    ∀ c ∈ s, c ≠ '/' := by
  intro c hc
  have hall : s.all (fun c => c.isLower) = true := by
    simp [isLowerStr] at h
    exact List.all_eq_true.mpr (fun x hx => by simpa using h.2 x hx)
  exact lower_ne_slash (List.all_eq_true.mp hall c hc)

theorem no_dot_of_lowerStr {s : List Char} (h : isLowerStr s = true) :
    ∀ c ∈ s, c ≠ '.' := by
  intro c hc
  have hall : s.all (fun c => c.isLower) = true := by
    simp [isLowerStr] at h
    exact List.all_eq_true.mpr (fun x hx => by simpa using h.2 x hx)
  exact lower_ne_dot (List.all_eq_true.mp hall c hc)

/-- `parseTileCore` recovers the components of any well-formed tile
path tail, including names with embedded slashes. -/
theorem parseTileCore_roundtrip (name zs xs ys es : List Char)
    (hn : name ≠ []) (hnc : name.all nameChar = true)
    (hz : isDigitStr zs = true) (hx : isDigitStr xs = true)
    (hy : isDigitStr ys = true) (he : isLowerStr es = true) :
    parseTileCore (name ++ '/' :: (zs ++ '/' :: (xs ++ '/' :: (ys ++ '.' :: es)))) =
      some (name, zs, xs, ys, es) := by
  have hyext : ∀ c ∈ ys ++ '.' :: es, c ≠ '/' := by
    intro c hc
    rcases List.mem_append.mp hc with h1 | h2
    · exact no_sep_of_digitStr hy c h1
    · rcases List.mem_cons.mp h2 with h3 | h4
      · rw [h3]; decide
      · exact no_sep_of_lowerStr he c h4
  have hsplit : splitOnChar '/' (name ++ '/' :: (zs ++ '/' :: (xs ++ '/' :: (ys ++ '.' :: es)))) =
      splitOnChar '/' name ++ [zs, xs, ys ++ '.' :: es] := by
    rw [splitOnChar_append_sep, splitOnChar_append_sep, splitOnChar_append_sep,
        splitOnChar_eq_single _ zs (no_sep_of_digitStr hz),
        splitOnChar_eq_single _ xs (no_sep_of_digitStr hx),
        splitOnChar_eq_single _ _ hyext]
    rfl
  have hdot : splitOnChar '.' (ys ++ '.' :: es) = [ys, es] := by
    rw [splitOnChar_append_sep,
        splitOnChar_eq_single _ ys (no_dot_of_digitStr hy),
        splitOnChar_eq_single _ es (no_dot_of_lowerStr he)]
    rfl
  have hrev : (splitOnChar '/' name ++ [zs, xs, ys ++ '.' :: es]).reverse =
      (ys ++ '.' :: es) :: xs :: zs :: (splitOnChar '/' name).reverse := by
    simp
  unfold parseTileCore
  rw [hsplit, hrev]
  simp only [List.reverse_reverse, joinSlash_splitOnChar, hdot]
  have hne : name.isEmpty = false := by
    cases name with
    | nil => exact absurd rfl hn
    | cons a b => rfl
  simp [hne, hnc, hz, hx, hy, he]

theorem data_append (a b : String) : (a ++ b).data = a.data ++ b.data := rfl

theorem data_ne_nil {s : String} (h : s ≠ "") : s.data ≠ [] := by
  intro hd
  apply h
  cases s with
  | mk l => cases hd; rfl

/-- `parsePath` recovers every component of a well-formed tile path
(name possibly containing slashes, decimal `z`/`x`/`y`, lowercase
extension). -/
theorem parsePath_tile_roundtrip (name zs xs ys es : String)
    (hn : name ≠ "") (hnc : name.data.all nameChar = true)
    (hz : isDigitStr zs.data = true) (hx : isDigitStr xs.data = true)
    (hy : isDigitStr ys.data = true) (he : isLowerStr es.data = true) :
    parsePath ("/" ++ name ++ "/" ++ zs ++ "/" ++ xs ++ "/" ++ ys ++ "." ++ es) =
      some (.tile name (digitsVal zs.data) (digitsVal xs.data) (digitsVal ys.data) es) := by
  have hdata : ("/" ++ name ++ "/" ++ zs ++ "/" ++ xs ++ "/" ++ ys ++ "." ++ es).data =
      '/' :: (name.data ++ '/' :: (zs.data ++ '/' :: (xs.data ++ '/' :: (ys.data ++ '.' :: es.data)))) := by
    simp [data_append]
  unfold parsePath
  rw [hdata]
  simp only [if_pos rfl]
  rw [parseTileCore_roundtrip name.data zs.data xs.data ys.data es.data
      (data_ne_nil hn) hnc hz hx hy he]
  cases name
  cases es
  rfl

/-- `parseJsonCore` recovers the name of a well-formed TileJSON path
tail. -/
theorem parseJsonCore_roundtrip (name : List Char)
    (hn : name ≠ []) (hnc : name.all nameChar = true) :
    parseJsonCore (name ++ ['.', 'j', 's', 'o', 'n']) = some name := by
  have hrev : (name ++ ['.', 'j', 's', 'o', 'n']).reverse =
      'n' :: 'o' :: 's' :: 'j' :: '.' :: name.reverse := by
    simp
  unfold parseJsonCore
  rw [hrev]
  have hne : name.reverse.reverse.isEmpty = false := by
    cases hcase : name.reverse.reverse with
    | nil =>
      rw [List.reverse_reverse] at hcase
      exact absurd hcase hn
    | cons a b => rfl
  simp [hne, hnc, hn]

/-- `parsePath` recovers the name of a well-formed TileJSON path,
provided the path does not also match the tile grammar (which is tried
first). -/
theorem parsePath_json_roundtrip (name : String)
    (hn : name ≠ "") (hnc : name.data.all nameChar = true)
    (hnotile : parseTileCore (name.data ++ ['.', 'j', 's', 'o', 'n']) = none) :
    parsePath ("/" ++ name ++ ".json") = some (.tilejson name) := by
  have hdata : ("/" ++ name ++ ".json").data =
      '/' :: (name.data ++ ['.', 'j', 's', 'o', 'n']) := by
    simp [data_append]
  unfold parsePath
  rw [hdata]
  simp only [if_pos rfl]
  rw [hnotile, parseJsonCore_roundtrip name.data (data_ne_nil hn) hnc]
  cases name
  rfl

/-- A path rejected by the parser is answered 400 before any reader
operation runs. -/
theorem handler_invalidPath (env : Env) (extf : ExtFns) (arch : ArchiveBehavior)
    (event : LambdaEvent) (path : String) (came : Bool)
    (hp : pathOf event = some (path, came)) (hnone : parsePath path = none) :
    handler env extf arch event =
      ⟨makeResponse env 400 "Invalid tile URL" [] false, []⟩ := by
  unfold handler
  rw [hp]
  simp only [hnone]

/-! ## Staleness-retry lemmas (C1) -/

theorem condReads_version (st : RemoteStore) (e : Nat) :
    ∀ k t cs, condReads st e t k = some cs → ∀ p ∈ cs, p.1 = e := by
  intro k
  induction k with
  | zero =>
    intro t cs h p hp
    unfold condReads at h
    cases h
    simp at hp
  | succ k ih =>
    intro t cs h p hp
    unfold condReads at h
    split at h
    · rename_i hv
      cases hrec : condReads st e (t + 1) k with
      | none => rw [hrec] at h; cases h
      | some rest =>
        rw [hrec] at h
        cases h
        rcases List.mem_cons.mp hp with h1 | h2
        · rw [h1]; exact hv
        · exact ih (t + 1) rest hrec p h2
    · cases h

theorem runAccess_version (st : RemoteStore) (t0 steps : Nat) (v : Nat)
    (cs : List (Nat × List Nat)) (h : runAccess st t0 steps = some (v, cs)) :
    ∀ p ∈ cs, p.1 = v := by
  unfold runAccess at h
  cases hc : condReads st (st.versionAt t0) (t0 + 1) steps with
  | none => rw [hc] at h; cases h
  | some rest =>
    rw [hc] at h
    simp only [Option.map_some'] at h
    cases h
    intro p hp
    rcases List.mem_cons.mp hp with h1 | h2
    · rw [h1]
    · exact condReads_version st _ steps (t0 + 1) rest hc p h2

/-- A concrete store whose object is replaced at every instant, so
every multi-step access observes a conflict. -/
def storeFlip : RemoteStore := ⟨fun t => t, fun v i => [v, i]⟩

/-! ## Header and response lemmas -/

theorem makeResponse_statusCode (env : Env) (s : Nat) (b : String)
    (hs : List (String × String)) (i : Bool) :
    (makeResponse env s b hs i).statusCode = s := rfl

theorem makeResponse_body (env : Env) (s : Nat) (b : String)
    (hs : List (String × String)) (i : Bool) :
    (makeResponse env s b hs i).body = b := rfl

theorem getHeaderVal_nil (k : String) : getHeaderVal [] k = none := rfl

theorem key_ne (a v b : String) (h : ¬a = b) : ((a, v)).1 ≠ b := h

theorem getHeaderVal_cons_ne (p : String × String) (hs : List (String × String))
    (k : String) (h : p.1 ≠ k) :
    getHeaderVal (p :: hs) k = getHeaderVal hs k := by
  show (if p.1 = k then some p.2 else getHeaderVal hs k) = getHeaderVal hs k
  rw [if_neg h]

theorem getHeaderVal_cons_eq (p : String × String) (hs : List (String × String))
    (k : String) (h : p.1 = k) :
    getHeaderVal (p :: hs) k = some p.2 := by
  show (if p.1 = k then some p.2 else getHeaderVal hs k) = some p.2
  rw [if_pos h]

theorem getHeaderVal_setHeader_self (hs : List (String × String)) (k v : String) :
    getHeaderVal (setHeader hs k v) k = some v := by
  induction hs with
  | nil => exact getHeaderVal_cons_eq (k, v) [] k rfl
  | cons p rest ih =>
    show getHeaderVal (if p.1 = k then (k, v) :: rest else p :: setHeader rest k v) k = some v
    by_cases hp : p.1 = k
    · rw [if_pos hp]
      exact getHeaderVal_cons_eq (k, v) rest k rfl
    · rw [if_neg hp, getHeaderVal_cons_ne p _ k hp]
      exact ih

theorem getHeaderVal_setHeader_other (hs : List (String × String)) (k v k2 : String)
    (h : k2 ≠ k) :
    getHeaderVal (setHeader hs k v) k2 = getHeaderVal hs k2 := by
  induction hs with
  | nil =>
    show getHeaderVal [(k, v)] k2 = getHeaderVal [] k2
    rw [getHeaderVal_cons_ne _ _ k2 (fun hc => h hc.symm)]
  | cons p rest ih =>
    show getHeaderVal (if p.1 = k then (k, v) :: rest else p :: setHeader rest k v) k2 = _
    by_cases hp : p.1 = k
    · rw [if_pos hp]
      rw [getHeaderVal_cons_ne _ _ k2 (fun hc => h hc.symm),
          getHeaderVal_cons_ne p _ k2 (fun hc => h (hc ▸ hp))]
    · rw [if_neg hp]
      by_cases hp2 : p.1 = k2
      · rw [getHeaderVal_cons_eq p _ k2 hp2, getHeaderVal_cons_eq p _ k2 hp2]
      · rw [getHeaderVal_cons_ne p _ k2 hp2, getHeaderVal_cons_ne p _ k2 hp2]
        exact ih

theorem getHeaderVal_makeResponse_other (env : Env) (s : Nat) (b : String)
    (hs : List (String × String)) (i : Bool) (k : String)
    (hk : k ≠ "Access-Control-Allow-Origin") :
    getHeaderVal (makeResponse env s b hs i).headers k = getHeaderVal hs k := by
  unfold makeResponse
  cases truthy env.cors with
  | none => rfl
  | some c => exact getHeaderVal_setHeader_other hs _ c k hk

theorem getHeaderVal_makeResponse_acao_some (env : Env) (s : Nat) (b : String)
    (hs : List (String × String)) (i : Bool) (c : String)
    (hc : truthy env.cors = some c) :
    getHeaderVal (makeResponse env s b hs i).headers "Access-Control-Allow-Origin" = some c := by
  unfold makeResponse
  rw [hc]
  exact getHeaderVal_setHeader_self hs _ c

theorem getHeaderVal_makeResponse_acao_none (env : Env) (s : Nat) (b : String)
    (hs : List (String × String)) (i : Bool)
    (hc : truthy env.cors = none)
    (hno : getHeaderVal hs "Access-Control-Allow-Origin" = none) :
    getHeaderVal (makeResponse env s b hs i).headers "Access-Control-Allow-Origin" = none := by
  unfold makeResponse
  rw [hc]
  exact hno

/-! ## Handler reduction lemmas -/

theorem handler_eq_handleTile (env : Env) (extf : ExtFns) (arch : ArchiveBehavior)
    (event : LambdaEvent) (path : String) (came : Bool)
    (name : String) (z x y : Nat) (ext : String)
    (hp : pathOf event = some (path, came))
    (hparse : parsePath path = some (.tile name z x y ext)) :
    handler env extf arch event = handleTile env extf arch came z x y ext := by
  unfold handler
  rw [hp]
  simp only [hparse]

theorem handler_eq_handleTileJson (env : Env) (extf : ExtFns) (arch : ArchiveBehavior)
    (event : LambdaEvent) (path : String) (came : Bool) (name : String)
    (hp : pathOf event = some (path, came))
    (hparse : parsePath path = some (.tilejson name)) :
    handler env extf arch event = handleTileJson env extf arch event name := by
  unfold handler
  rw [hp]
  simp only [hparse]

theorem tileTypeToInfo_unrecognized (t : Nat)
    (h1 : t ≠ 1) (h2 : t ≠ 2) (h3 : t ≠ 3) (h4 : t ≠ 4) (h5 : t ≠ 5) :
    tileTypeToInfo t = ⟨"", "application/octet-stream"⟩ := by
  unfold tileTypeToInfo
  split <;> simp_all

theorem extAccepted_of_empty (tt : Nat) (ext : String)
    (h : (tileTypeToInfo tt).ext = "") : extAccepted tt ext = true := by
  unfold extAccepted
  split
  · rfl
  · rw [if_neg (fun hc => hc.1 h)]

theorem extAccepted_of_canonical (tt : Nat) (ext : String)
    (h : "." ++ ext = (tileTypeToInfo tt).ext) : extAccepted tt ext = true := by
  unfold extAccepted
  split
  · rfl
  · rw [if_neg (fun hc => hc.2 h)]

theorem extAccepted_false_of_mismatch (tt : Nat) (ext : String)
    (hpbf : ¬(tt = 1 ∧ ext = "pbf"))
    (hne : (tileTypeToInfo tt).ext ≠ "")
    (hmm : "." ++ ext ≠ (tileTypeToInfo tt).ext) : extAccepted tt ext = false := by
  unfold extAccepted
  rw [if_neg hpbf, if_pos ⟨hne, hmm⟩]

/-- The success branch of the tile handler, in closed form. -/
theorem handleTile_success (env : Env) (extf : ExtFns) (arch : ArchiveBehavior)
    (came : Bool) (z x y : Nat) (ext : String) (hd : ArchiveHeader) (t : TileResult)
    (hh : arch.getHeader = .ok hd) (hlo : hd.minZoom ≤ z) (hhi : z ≤ hd.maxZoom)
    (hacc : extAccepted hd.tileType ext = true)
    (hzxy : arch.getZxy z x y = .ok (some t)) :
    handleTile env extf arch came z x y ext =
      ⟨makeResponse env 200
          (if came then extf.base64 (extf.gzipSync t.data) else extf.base64 t.data)
          (if came then
            setHeader
              [("Content-Type", (tileTypeToInfo hd.tileType).contentType),
               ("Cache-Control", (truthy env.cacheControl).getD "public, max-age=86400"),
               ("ETag", "\"" ++ extf.sha256hex t.data ++ "\"")]
              "Content-Encoding" "gzip"
          else
            [("Content-Type", (tileTypeToInfo hd.tileType).contentType),
             ("Cache-Control", (truthy env.cacheControl).getD "public, max-age=86400"),
             ("ETag", "\"" ++ extf.sha256hex t.data ++ "\"")])
          true,
       [.getHeaderCall, .getZxyCall z x y]⟩ := by
  unfold handleTile
  rw [hh]
  dsimp only
  have hz : ¬(z < hd.minZoom ∨ z > hd.maxZoom) := by omega
  rw [if_neg hz, if_pos hacc, hzxy]
  cases came <;> rfl

/-- The success branch under the Function-URL transport: uncompressed
body, no Content-Encoding header. -/
theorem handleTile_success_url (env : Env) (extf : ExtFns) (arch : ArchiveBehavior)
    (z x y : Nat) (ext : String) (hd : ArchiveHeader) (t : TileResult)
    (hh : arch.getHeader = .ok hd) (hlo : hd.minZoom ≤ z) (hhi : z ≤ hd.maxZoom)
    (hacc : extAccepted hd.tileType ext = true)
    (hzxy : arch.getZxy z x y = .ok (some t)) :
    handleTile env extf arch false z x y ext =
      ⟨makeResponse env 200 (extf.base64 t.data)
          [("Content-Type", (tileTypeToInfo hd.tileType).contentType),
           ("Cache-Control", (truthy env.cacheControl).getD "public, max-age=86400"),
           ("ETag", "\"" ++ extf.sha256hex t.data ++ "\"")]
          true,
       [.getHeaderCall, .getZxyCall z x y]⟩ := by
  rw [handleTile_success env extf arch false z x y ext hd t hh hlo hhi hacc hzxy]
  rfl

/-- The success branch under the API-Gateway-proxy transport: gzip
body, Content-Encoding header set. -/
theorem handleTile_success_api (env : Env) (extf : ExtFns) (arch : ArchiveBehavior)
    (z x y : Nat) (ext : String) (hd : ArchiveHeader) (t : TileResult)
    (hh : arch.getHeader = .ok hd) (hlo : hd.minZoom ≤ z) (hhi : z ≤ hd.maxZoom)
    (hacc : extAccepted hd.tileType ext = true)
    (hzxy : arch.getZxy z x y = .ok (some t)) :
    handleTile env extf arch true z x y ext =
      ⟨makeResponse env 200 (extf.base64 (extf.gzipSync t.data))
          (setHeader
            [("Content-Type", (tileTypeToInfo hd.tileType).contentType),
             ("Cache-Control", (truthy env.cacheControl).getD "public, max-age=86400"),
             ("ETag", "\"" ++ extf.sha256hex t.data ++ "\"")]
            "Content-Encoding" "gzip")
          true,
       [.getHeaderCall, .getZxyCall z x y]⟩ := by
  rw [handleTile_success env extf arch true z x y ext hd t hh hlo hhi hacc hzxy]
  rfl

/-- The sparse branch of the tile handler: coordinate absent, 204. -/
theorem handleTile_absent (env : Env) (extf : ExtFns) (arch : ArchiveBehavior)
    (came : Bool) (z x y : Nat) (ext : String) (hd : ArchiveHeader)
    (hh : arch.getHeader = .ok hd) (hlo : hd.minZoom ≤ z) (hhi : z ≤ hd.maxZoom)
    (hacc : extAccepted hd.tileType ext = true)
    (hzxy : arch.getZxy z x y = .ok none) :
    handleTile env extf arch came z x y ext =
      ⟨makeResponse env 204 "" [] false,
       [.getHeaderCall, .getZxyCall z x y]⟩ := by
  unfold handleTile
  rw [hh]
  dsimp only
  have hz : ¬(z < hd.minZoom ∨ z > hd.maxZoom) := by omega
  rw [if_neg hz, if_pos hacc, hzxy]

/-- The tile-fetch-error branch of the tile handler. -/
theorem handleTile_zxyError (env : Env) (extf : ExtFns) (arch : ArchiveBehavior)
    (came : Bool) (z x y : Nat) (ext : String) (hd : ArchiveHeader) (e : JsError)
    (hh : arch.getHeader = .ok hd) (hlo : hd.minZoom ≤ z) (hhi : z ≤ hd.maxZoom)
    (hacc : extAccepted hd.tileType ext = true)
    (hzxy : arch.getZxy z x y = .error e) :
    handleTile env extf arch came z x y ext =
      ⟨errResponse env e,
       [.getHeaderCall, .getZxyCall z x y]⟩ := by
  unfold handleTile
  rw [hh]
  dsimp only
  have hz : ¬(z < hd.minZoom ∨ z > hd.maxZoom) := by omega
  rw [if_neg hz, if_pos hacc, hzxy]

/-! ## Claim theorems -/

/-- C1: every request performs at most two logical accesses (the access
is retried exactly once on a staleness); a staleness-free first access
is served without retry; a second staleness within the same request is
surfaced as UpstreamUnavailable after exactly the one retry; and every
chunk of a served response was read under the single version the
response reports — no mixed-version bytes are ever served. -/
theorem c1_staleness_retry (st : RemoteStore) (steps : Nat) :
    (handleLogical st steps).attempts ≤ 2 ∧
    (∀ v cs, runAccess st 0 steps = some (v, cs) →
      handleLogical st steps = .served v cs 1) ∧
    (runAccess st 0 steps = none → runAccess st (steps + 1) steps = none →
      handleLogical st steps = .upstreamUnavailable 2) ∧
    (∀ v cs a, handleLogical st steps = .served v cs a → ∀ p ∈ cs, p.1 = v) := by
  refine ⟨?_, ?_, ?_, ?_⟩
  · unfold handleLogical
    cases h1 : runAccess st 0 steps with
    | some p => obtain ⟨v2, cs2⟩ := p; simp [RequestOutcome.attempts]
    | none =>
      cases h2 : runAccess st (steps + 1) steps with
      | some p => obtain ⟨v2, cs2⟩ := p; simp [RequestOutcome.attempts]
      | none => simp [RequestOutcome.attempts]
  · intro v cs h
    unfold handleLogical
    rw [h]
  · intro h1 h2
    unfold handleLogical
    rw [h1, h2]
  · intro v cs a h
    unfold handleLogical at h
    cases h1 : runAccess st 0 steps with
    | some p =>
      obtain ⟨v2, cs2⟩ := p
      rw [h1] at h
      dsimp only at h
      injection h with e1 e2 e3
      subst e1
      subst e2
      exact runAccess_version st 0 steps _ _ h1
    | none =>
      rw [h1] at h
      dsimp only at h
      cases h2 : runAccess st (steps + 1) steps with
      | some p =>
        obtain ⟨v2, cs2⟩ := p
        rw [h2] at h
        dsimp only at h
        injection h with e1 e2 e3
        subst e1
        subst e2
        exact runAccess_version st (steps + 1) steps _ _ h2
      | none =>
        rw [h2] at h
        dsimp only at h
        cases h

/-- C1 witness: on a store replaced at every instant, a one-follow-up
access is stale, its single retry is stale again, and the request is
surfaced as UpstreamUnavailable after two attempts. -/
theorem c1_staleness_retry_witness :
    runAccess storeFlip 0 1 = none ∧ runAccess storeFlip 2 1 = none ∧
    handleLogical storeFlip 1 = .upstreamUnavailable 2 :=
  ⟨rfl, rfl, (c1_staleness_retry storeFlip 1).2.2.1 rfl rfl⟩

/-- C2 counterexample: two resolutions of the same previously-unseen
archive name do not observe the same resulting reader — `getArchive`
constructs a fresh `PMTiles` instance (a fresh allocation) on every
call, so the two callers hold distinct reader objects. -/
theorem c2_counterexample :
    (getArchive "demo" 0).1 ≠ (getArchive "demo" (getArchive "demo" 0).2).1 := by
  decide

/-- C2 amended: each resolution constructs a fresh reader instance, but
all readers share the module-level promise cache, and for a
previously-unseen key the first check-and-register acquisition starts
exactly one fetch-and-populate sequence; the second caller's
acquisition observes the same registered promise (hence the same
eventual outcome, success or failure), changes nothing, and starts no
second fetch. -/
theorem c2_shared_cache_dedup (st : PromiseCache) (key : String)
    (hmiss : st.entries.find? (fun p => p.1 = key) = none) :
    (cacheAcquire st key).2.fetchesStarted = key :: st.fetchesStarted ∧
    (cacheAcquire (cacheAcquire st key).2 key).1 = (cacheAcquire st key).1 ∧
    (cacheAcquire (cacheAcquire st key).2 key).2 = (cacheAcquire st key).2 := by
  unfold cacheAcquire
  rw [hmiss]
  simp

/-- C2 witness: from an empty cache, two acquisitions of the key
`demo` start exactly one fetch and share one promise. -/
theorem c2_shared_cache_dedup_witness :
    (cacheAcquire ⟨[], 0, []⟩ "demo").2.fetchesStarted = ["demo"] ∧
    (cacheAcquire (cacheAcquire ⟨[], 0, []⟩ "demo").2 "demo").1 =
      (cacheAcquire ⟨[], 0, []⟩ "demo").1 :=
  ⟨(c2_shared_cache_dedup ⟨[], 0, []⟩ "demo" rfl).1,
   (c2_shared_cache_dedup ⟨[], 0, []⟩ "demo" rfl).2.1⟩

/-- A sample archive header declaring the unrecognized tile type 6. -/
def headerOddT : ArchiveHeader := ⟨6, 0, 14, -180, -85, 180, 85, 0, 0, 3⟩

/-- C3 counterexample: a tile request on an archive declaring tile type
6 (outside 1..5) is answered 200 with the tile body — not 500 as the
claim states — because the empty table extension makes the validation
branch fall through. -/
theorem c3_counterexample :
    (handler envBare extSample archOdd evTileFoo).response.statusCode = 200 ∧
    ¬(handler envBare extSample archOdd evTileFoo).response.statusCode = 500 := by
  decide

/-- C3 amended: a tile request on an archive whose header declares a
tile type outside the recognized enumeration 1..5 is not rejected:
extension validation is skipped (the table's empty extension disables
the check, so any extension is accepted), and a present tile is served
with status 200 and content-type `application/octet-stream`; no 500 is
produced for this condition. -/
theorem c3_unrecognized_type_served (env : Env) (extf : ExtFns) (arch : ArchiveBehavior)
    (event : LambdaEvent) (path : String) (came : Bool)
    (name : String) (z x y : Nat) (ext : String) (hd : ArchiveHeader) (t : TileResult)
    (hp : pathOf event = some (path, came))
    (hparse : parsePath path = some (.tile name z x y ext))
    (hh : arch.getHeader = .ok hd)
    (h1 : hd.tileType ≠ 1) (h2 : hd.tileType ≠ 2) (h3 : hd.tileType ≠ 3)
    (h4 : hd.tileType ≠ 4) (h5 : hd.tileType ≠ 5)
    (hlo : hd.minZoom ≤ z) (hhi : z ≤ hd.maxZoom)
    (hzxy : arch.getZxy z x y = .ok (some t)) :
    (handler env extf arch event).response.statusCode = 200 ∧
    getHeaderVal (handler env extf arch event).response.headers "Content-Type" =
      some "application/octet-stream" := by
  have hinfo := tileTypeToInfo_unrecognized hd.tileType h1 h2 h3 h4 h5
  have hacc : extAccepted hd.tileType ext = true :=
    extAccepted_of_empty hd.tileType ext (by rw [hinfo])
  rw [handler_eq_handleTile env extf arch event path came name z x y ext hp hparse]
  cases came
  · rw [handleTile_success_url env extf arch z x y ext hd t hh hlo hhi hacc hzxy]
    refine ⟨rfl, ?_⟩
    rw [getHeaderVal_makeResponse_other env _ _ _ _ _ (by decide),
        getHeaderVal_cons_eq _ _ _ rfl, hinfo]
  · rw [handleTile_success_api env extf arch z x y ext hd t hh hlo hhi hacc hzxy]
    refine ⟨rfl, ?_⟩
    rw [getHeaderVal_makeResponse_other env _ _ _ _ _ (by decide),
        getHeaderVal_setHeader_other _ _ _ _ (by decide),
        getHeaderVal_cons_eq _ _ _ rfl, hinfo]

/-- C3 witness: the amended behaviour at the concrete tile type 6. -/
theorem c3_unrecognized_type_served_witness :
    (handler envBare extSample archOdd evTileFoo).response.statusCode = 200 ∧
    getHeaderVal (handler envBare extSample archOdd evTileFoo).response.headers "Content-Type" =
      some "application/octet-stream" :=
  c3_unrecognized_type_served envBare extSample archOdd evTileFoo
    "/demo/1/2/3.foo" false "demo" 1 2 3 "foo" headerOddT ⟨[1, 2, 3]⟩
    rfl rfl rfl (by decide) (by decide) (by decide) (by decide) (by decide)
    (by decide) (by decide) rfl

/-- C4 counterexample: a metadata request with no public-host override
and no host-hint header is answered 500, not 501 — the missing-host
condition is thrown as a plain `Error` and the catch-all maps it to
500. -/
theorem c4_counterexample :
    (handler envBare extSample archVec evJsonBare).response.statusCode = 500 ∧
    ¬(handler envBare extSample archVec evJsonBare).response.statusCode = 501 := by
  decide

/-- C4 amended: a metadata (.json) request made when no public host
override is configured (untruthy) and the request carries no host-hint
header is answered with status 500 and the generic
`Internal server error` body (not 501). -/
theorem c4_metadata_missing_host (env : Env) (extf : ExtFns) (arch : ArchiveBehavior)
    (event : LambdaEvent) (path : String) (came : Bool) (name : String) (hd : ArchiveHeader)
    (hp : pathOf event = some (path, came))
    (hparse : parsePath path = some (.tilejson name))
    (hh : arch.getHeader = .ok hd)
    (hhost : hostFor env event = none) :
    (handler env extf arch event).response.statusCode = 500 ∧
    (handler env extf arch event).response.body = "Internal server error" := by
  rw [handler_eq_handleTileJson env extf arch event path came name hp hparse]
  unfold handleTileJson
  rw [hh]
  dsimp only
  rw [hhost]
  unfold errResponse
  rw [if_neg (by decide)]
  exact ⟨rfl, rfl⟩

/-- C4 witness: the amended behaviour at a concrete hostless request. -/
theorem c4_metadata_missing_host_witness :
    (handler envBare extSample archVec evJsonBare).response.statusCode = 500 ∧
    (handler envBare extSample archVec evJsonBare).response.body = "Internal server error" :=
  c4_metadata_missing_host envBare extSample archVec evJsonBare "/demo.json" false "demo"
    headerVec rfl rfl rfl rfl

/-- C7: a tile request whose `z` is strictly below `minZoom` or
strictly above `maxZoom` is answered 404 with an empty body, and the
only reader operation invoked is the header read — no tile-payload
fetch is issued. -/
theorem c7_zoom_out_of_range (env : Env) (extf : ExtFns) (arch : ArchiveBehavior)
    (event : LambdaEvent) (path : String) (came : Bool)
    (name : String) (z x y : Nat) (ext : String) (hd : ArchiveHeader)
    (hp : pathOf event = some (path, came))
    (hparse : parsePath path = some (.tile name z x y ext))
    (hh : arch.getHeader = .ok hd)
    (hz : z < hd.minZoom ∨ z > hd.maxZoom) :
    (handler env extf arch event).response.statusCode = 404 ∧
    (handler env extf arch event).response.body = "" ∧
    (handler env extf arch event).calls = [.getHeaderCall] := by
  rw [handler_eq_handleTile env extf arch event path came name z x y ext hp hparse]
  unfold handleTile
  rw [hh]
  dsimp only
  rw [if_pos hz]
  exact ⟨rfl, rfl, rfl⟩

/-- C7 witness: zoom 20 on an archive with maxZoom 14. -/
theorem c7_zoom_out_of_range_witness :
    (handler envBare extSample archVec evTileHigh).response.statusCode = 404 ∧
    (handler envBare extSample archVec evTileHigh).response.body = "" ∧
    (handler envBare extSample archVec evTileHigh).calls = [.getHeaderCall] :=
  c7_zoom_out_of_range envBare extSample archVec evTileHigh "/demo/20/2/3.mvt" false
    "demo" 20 2 3 "mvt" headerVec rfl rfl rfl (by decide)

/-- C5 counterexample: `/a/1/2/3.json` is a valid metadata path for the
archive name `a/1/2/3` (nonempty, all characters in the class), yet the
parser yields the tile intent `(a, 1, 2, 3, json)` — the tile grammar
is tried first and `json` is a legal extension — so the metadata name
is not recovered. -/
theorem c5_counterexample :
    ("a/1/2/3" : String).data ≠ [] ∧
    ("a/1/2/3" : String).data.all nameChar = true ∧
    parsePath "/a/1/2/3.json" = some (.tile "a" 1 2 3 "json") ∧
    parsePath "/a/1/2/3.json" ≠ some (.tilejson "a/1/2/3") := by
  decide

/-- C5 amended: the parser implements exactly the two grammars tried in
order — for every valid tile path it recovers exactly the archive name
(which may contain `/`), z, x, y, and extension; for every valid
metadata path that does not also match the tile grammar it recovers the
name; and for every other path it yields InvalidPath, upon which the
system responds 400 without invoking any reader operation. -/
theorem c5_path_grammar :
    (∀ name zs xs ys es : String, name ≠ "" → name.data.all nameChar = true →
      isDigitStr zs.data = true → isDigitStr xs.data = true → isDigitStr ys.data = true →
      isLowerStr es.data = true →
      parsePath ("/" ++ name ++ "/" ++ zs ++ "/" ++ xs ++ "/" ++ ys ++ "." ++ es) =
        some (.tile name (digitsVal zs.data) (digitsVal xs.data) (digitsVal ys.data) es)) ∧
    (∀ name : String, name ≠ "" → name.data.all nameChar = true →
      parseTileCore (name.data ++ ['.', 'j', 's', 'o', 'n']) = none →
      parsePath ("/" ++ name ++ ".json") = some (.tilejson name)) ∧
    (∀ (env : Env) (extf : ExtFns) (arch : ArchiveBehavior) (event : LambdaEvent)
        (path : String) (came : Bool),
      pathOf event = some (path, came) → parsePath path = none →
      handler env extf arch event =
        ⟨makeResponse env 400 "Invalid tile URL" [] false, []⟩) :=
  ⟨parsePath_tile_roundtrip, parsePath_json_roundtrip, handler_invalidPath⟩

/-- C5 witness: the three amended clauses at concrete inputs. -/
theorem c5_path_grammar_witness :
    parsePath "/a/b/10/2/3.png" = some (.tile "a/b" 10 2 3 "png") ∧
    parsePath "/demo.json" = some (.tilejson "demo") ∧
    handler envBare extSample archVec ⟨none, some "/nope", []⟩ =
      ⟨makeResponse envBare 400 "Invalid tile URL" [] false, []⟩ := by
  refine ⟨?_, ?_, ?_⟩
  · exact c5_path_grammar.1 "a/b" "10" "2" "3" "png" (by decide) (by decide)
      (by decide) (by decide) (by decide) (by decide)
  · exact c5_path_grammar.2.1 "demo" (by decide) (by decide) (by decide)
  · exact c5_path_grammar.2.2 envBare extSample archVec ⟨none, some "/nope", []⟩
      "/nope" false rfl rfl

/-- C6: extension validation accepts the archive's canonical extension
(the fetch runs and no 400 is produced); for vector archives (tile type
1) the legacy alias `pbf` yields a response identical to the canonical
`mvt` request; and any other mismatch against a recognized tile type is
answered 400 with a body naming both the requested and the actual
extension. -/
theorem c6_ext_validation (env : Env) (extf : ExtFns) (arch : ArchiveBehavior)
    (hd : ArchiveHeader) :
    (∀ (e1 e2 : LambdaEvent) (p1 p2 : String) (came : Bool) (name : String) (z x y : Nat),
      pathOf e1 = some (p1, came) → pathOf e2 = some (p2, came) →
      parsePath p1 = some (.tile name z x y "pbf") →
      parsePath p2 = some (.tile name z x y "mvt") →
      arch.getHeader = .ok hd → hd.tileType = 1 →
      handler env extf arch e1 = handler env extf arch e2) ∧
    (∀ (event : LambdaEvent) (path : String) (came : Bool) (name : String)
        (z x y : Nat) (ext : String),
      pathOf event = some (path, came) → parsePath path = some (.tile name z x y ext) →
      arch.getHeader = .ok hd → hd.minZoom ≤ z → z ≤ hd.maxZoom →
      "." ++ ext = (tileTypeToInfo hd.tileType).ext →
      (handler env extf arch event).calls = [.getHeaderCall, .getZxyCall z x y] ∧
      (handler env extf arch event).response.statusCode ≠ 400) ∧
    (∀ (event : LambdaEvent) (path : String) (came : Bool) (name : String)
        (z x y : Nat) (ext : String),
      pathOf event = some (path, came) → parsePath path = some (.tile name z x y ext) →
      arch.getHeader = .ok hd → hd.minZoom ≤ z → z ≤ hd.maxZoom →
      ¬(hd.tileType = 1 ∧ ext = "pbf") →
      (tileTypeToInfo hd.tileType).ext ≠ "" →
      "." ++ ext ≠ (tileTypeToInfo hd.tileType).ext →
      (handler env extf arch event).response.statusCode = 400 ∧
      (handler env extf arch event).response.body =
        "Bad request: requested ." ++ ext ++ " but archive has type " ++
          (tileTypeToInfo hd.tileType).ext) := by
  refine ⟨?_, ?_, ?_⟩
  · intro e1 e2 p1 p2 came name z x y hp1 hp2 hq1 hq2 hh ht
    rw [handler_eq_handleTile env extf arch e1 p1 came name z x y "pbf" hp1 hq1,
        handler_eq_handleTile env extf arch e2 p2 came name z x y "mvt" hp2 hq2]
    have ha : extAccepted hd.tileType "pbf" = true := by
      rw [ht]; decide
    have hb : extAccepted hd.tileType "mvt" = true := by
      rw [ht]; decide
    unfold handleTile
    rw [hh]
    dsimp only
    by_cases hz : z < hd.minZoom ∨ z > hd.maxZoom
    · rw [if_pos hz, if_pos hz]
    · rw [if_neg hz, if_neg hz, if_pos ha, if_pos hb]
  · intro event path came name z x y ext hp hparse hh hlo hhi hcan
    have hacc : extAccepted hd.tileType ext = true :=
      extAccepted_of_canonical hd.tileType ext hcan
    rw [handler_eq_handleTile env extf arch event path came name z x y ext hp hparse]
    cases hzxy : arch.getZxy z x y with
    | error e =>
      rw [handleTile_zxyError env extf arch came z x y ext hd e hh hlo hhi hacc hzxy]
      refine ⟨rfl, ?_⟩
      unfold errResponse
      split
      · rw [makeResponse_statusCode]; decide
      · rw [makeResponse_statusCode]; decide
    | ok o =>
      cases o with
      | none =>
        rw [handleTile_absent env extf arch came z x y ext hd hh hlo hhi hacc hzxy]
        refine ⟨rfl, ?_⟩
        rw [makeResponse_statusCode]; decide
      | some t =>
        cases came
        · rw [handleTile_success_url env extf arch z x y ext hd t hh hlo hhi hacc hzxy]
          refine ⟨rfl, ?_⟩
          rw [makeResponse_statusCode]; decide
        · rw [handleTile_success_api env extf arch z x y ext hd t hh hlo hhi hacc hzxy]
          refine ⟨rfl, ?_⟩
          rw [makeResponse_statusCode]; decide
  · intro event path came name z x y ext hp hparse hh hlo hhi hpbf hne hmm
    have hacc : extAccepted hd.tileType ext = false :=
      extAccepted_false_of_mismatch hd.tileType ext hpbf hne hmm
    rw [handler_eq_handleTile env extf arch event path came name z x y ext hp hparse]
    unfold handleTile
    rw [hh]
    dsimp only
    have hz : ¬(z < hd.minZoom ∨ z > hd.maxZoom) := by omega
    rw [if_neg hz, if_neg (by rw [hacc]; exact Bool.false_ne_true)]
    exact ⟨rfl, rfl⟩

/-- C6 witness: on the sample vector archive, `pbf` and `mvt` requests
coincide; the canonical request reaches the fetch; and a `png` request
is answered 400 naming both extensions. -/
theorem c6_ext_validation_witness :
    handler envBare extSample archVec ⟨none, some "/demo/1/2/3.pbf", []⟩ =
      handler envBare extSample archVec evTileRaw ∧
    (handler envBare extSample archVec evTileRaw).calls =
      [.getHeaderCall, .getZxyCall 1 2 3] ∧
    (handler envBare extSample archVec ⟨none, some "/demo/1/2/3.png", []⟩).response.statusCode = 400 ∧
    (handler envBare extSample archVec ⟨none, some "/demo/1/2/3.png", []⟩).response.body =
      "Bad request: requested .png but archive has type .mvt" := by
  refine ⟨?_, ?_, ?_⟩
  · exact (c6_ext_validation envBare extSample archVec headerVec).1
      ⟨none, some "/demo/1/2/3.pbf", []⟩ evTileRaw "/demo/1/2/3.pbf" "/demo/1/2/3.mvt"
      false "demo" 1 2 3 rfl rfl rfl rfl rfl rfl
  · exact ((c6_ext_validation envBare extSample archVec headerVec).2.1
      evTileRaw "/demo/1/2/3.mvt" false "demo" 1 2 3 "mvt"
      rfl rfl rfl (by decide) (by decide) (by decide)).1
  · have h := (c6_ext_validation envBare extSample archVec headerVec).2.2
      ⟨none, some "/demo/1/2/3.png", []⟩ "/demo/1/2/3.png" false "demo" 1 2 3 "png"
      rfl rfl rfl (by decide) (by decide) (by decide) (by decide) (by decide)
    exact ⟨h.1, h.2⟩

/-- C8: for every successful tile response the gzip decision follows
the invocation transport alone: under the API-Gateway proxy shape the
body is the base64 of the gzip encoding of the tile payload and
`Content-Encoding: gzip` is set; under the Function-URL shape the body
is the base64 of the raw payload and no Content-Encoding header is
present; and the whole response is independent of the request headers
(content negotiation plays no part). -/
theorem c8_transport_gzip (env : Env) (extf : ExtFns) (arch : ArchiveBehavior)
    (hd : ArchiveHeader) (t : TileResult) :
    (∀ (event : LambdaEvent) (path : String) (name : String) (z x y : Nat) (ext : String),
      parsePath path = some (.tile name z x y ext) →
      arch.getHeader = .ok hd → hd.minZoom ≤ z → z ≤ hd.maxZoom →
      extAccepted hd.tileType ext = true →
      arch.getZxy z x y = .ok (some t) →
      (pathOf event = some (path, true) →
        (handler env extf arch event).response.body =
          extf.base64 (extf.gzipSync t.data) ∧
        getHeaderVal (handler env extf arch event).response.headers "Content-Encoding" =
          some "gzip") ∧
      (pathOf event = some (path, false) →
        (handler env extf arch event).response.body = extf.base64 t.data ∧
        getHeaderVal (handler env extf arch event).response.headers "Content-Encoding" =
          none)) ∧
    (∀ (e1 e2 : LambdaEvent) (p : String) (came : Bool) (name : String)
        (z x y : Nat) (ext : String),
      pathOf e1 = some (p, came) → pathOf e2 = some (p, came) →
      parsePath p = some (.tile name z x y ext) →
      handler env extf arch e1 = handler env extf arch e2) := by
  constructor
  · intro event path name z x y ext hparse hh hlo hhi hacc hzxy
    constructor
    · intro hp
      rw [handler_eq_handleTile env extf arch event path true name z x y ext hp hparse,
          handleTile_success_api env extf arch z x y ext hd t hh hlo hhi hacc hzxy]
      refine ⟨rfl, ?_⟩
      rw [getHeaderVal_makeResponse_other env _ _ _ _ _ (by decide),
          getHeaderVal_setHeader_self]
    · intro hp
      rw [handler_eq_handleTile env extf arch event path false name z x y ext hp hparse,
          handleTile_success_url env extf arch z x y ext hd t hh hlo hhi hacc hzxy]
      refine ⟨rfl, ?_⟩
      rw [getHeaderVal_makeResponse_other env _ _ _ _ _ (by decide),
          getHeaderVal_cons_ne _ _ _ (key_ne "Content-Type" _ "Content-Encoding" (by decide)),
          getHeaderVal_cons_ne _ _ _ (key_ne "Cache-Control" _ "Content-Encoding" (by decide)),
          getHeaderVal_cons_ne _ _ _ (key_ne "ETag" _ "Content-Encoding" (by decide))]
      rfl
  · intro e1 e2 p came name z x y ext hp1 hp2 hparse
    rw [handler_eq_handleTile env extf arch e1 p came name z x y ext hp1 hparse,
        handler_eq_handleTile env extf arch e2 p came name z x y ext hp2 hparse]

/-- C8 witness: the same tile over both transports, and invariance
under an added `accept-encoding` request header. -/
theorem c8_transport_gzip_witness :
    (handler envBare extSample archVec evTileApi).response.body =
      extSample.base64 (extSample.gzipSync [7, 7, 7]) ∧
    getHeaderVal (handler envBare extSample archVec evTileApi).response.headers
      "Content-Encoding" = some "gzip" ∧
    (handler envBare extSample archVec evTileRaw).response.body =
      extSample.base64 [7, 7, 7] ∧
    getHeaderVal (handler envBare extSample archVec evTileRaw).response.headers
      "Content-Encoding" = none ∧
    handler envBare extSample archVec evTileRaw =
      handler envBare extSample archVec ⟨none, some "/demo/1/2/3.mvt", [("accept-encoding", "gzip")]⟩ := by
  have hA := ((c8_transport_gzip envBare extSample archVec headerVec ⟨[7, 7, 7]⟩).1
    evTileApi "/demo/1/2/3.mvt" "demo" 1 2 3 "mvt" rfl rfl (by decide) (by decide)
    (by decide) rfl).1 rfl
  have hB := ((c8_transport_gzip envBare extSample archVec headerVec ⟨[7, 7, 7]⟩).1
    evTileRaw "/demo/1/2/3.mvt" "demo" 1 2 3 "mvt" rfl rfl (by decide) (by decide)
    (by decide) rfl).2 rfl
  have hC := (c8_transport_gzip envBare extSample archVec headerVec ⟨[7, 7, 7]⟩).2
    evTileRaw ⟨none, some "/demo/1/2/3.mvt", [("accept-encoding", "gzip")]⟩
    "/demo/1/2/3.mvt" false "demo" 1 2 3 "mvt" rfl rfl rfl
  exact ⟨hA.1, hA.2, hB.1, hB.2, hC⟩

/-- The ETag header of every successful tile response is the quoted
sha-256 hex digest of the decoded tile bytes, on either transport. -/
theorem etag_of_success (env : Env) (extf : ExtFns) (arch : ArchiveBehavior)
    (event : LambdaEvent) (path : String) (came : Bool) (name : String)
    (z x y : Nat) (ext : String) (hd : ArchiveHeader) (t : TileResult)
    (hp : pathOf event = some (path, came))
    (hparse : parsePath path = some (.tile name z x y ext))
    (hh : arch.getHeader = .ok hd) (hlo : hd.minZoom ≤ z) (hhi : z ≤ hd.maxZoom)
    (hacc : extAccepted hd.tileType ext = true)
    (hzxy : arch.getZxy z x y = .ok (some t)) :
    getHeaderVal (handler env extf arch event).response.headers "ETag" =
      some ("\"" ++ extf.sha256hex t.data ++ "\"") := by
  rw [handler_eq_handleTile env extf arch event path came name z x y ext hp hparse]
  cases came
  · rw [handleTile_success_url env extf arch z x y ext hd t hh hlo hhi hacc hzxy,
        getHeaderVal_makeResponse_other env _ _ _ _ _ (by decide),
        getHeaderVal_cons_ne _ _ _ (key_ne "Content-Type" _ "ETag" (by decide)),
        getHeaderVal_cons_ne _ _ _ (key_ne "Cache-Control" _ "ETag" (by decide)),
        getHeaderVal_cons_eq _ _ _ rfl]
  · rw [handleTile_success_api env extf arch z x y ext hd t hh hlo hhi hacc hzxy,
        getHeaderVal_makeResponse_other env _ _ _ _ _ (by decide),
        getHeaderVal_setHeader_other _ _ _ _ (by decide),
        getHeaderVal_cons_ne _ _ _ (key_ne "Content-Type" _ "ETag" (by decide)),
        getHeaderVal_cons_ne _ _ _ (key_ne "Cache-Control" _ "ETag" (by decide)),
        getHeaderVal_cons_eq _ _ _ rfl]

/-- C9: the ETag of a successful tile response is the quoted sha-256
digest of the decoded (pre-gzip) tile bytes, so any two requests — over
any transports, environments and archives — that return the identical
payload carry identical ETag headers. -/
theorem c9_etag_digest (extf : ExtFns) (env1 env2 : Env)
    (arch1 arch2 : ArchiveBehavior) (e1 e2 : LambdaEvent) (p1 p2 : String)
    (c1 c2 : Bool) (n1 n2 : String) (z1 x1 y1 z2 x2 y2 : Nat) (ea eb : String)
    (hd1 hd2 : ArchiveHeader) (t1 t2 : TileResult)
    (hp1 : pathOf e1 = some (p1, c1)) (hq1 : parsePath p1 = some (.tile n1 z1 x1 y1 ea))
    (hh1 : arch1.getHeader = .ok hd1) (hlo1 : hd1.minZoom ≤ z1) (hhi1 : z1 ≤ hd1.maxZoom)
    (hacc1 : extAccepted hd1.tileType ea = true)
    (hz1 : arch1.getZxy z1 x1 y1 = .ok (some t1))
    (hp2 : pathOf e2 = some (p2, c2)) (hq2 : parsePath p2 = some (.tile n2 z2 x2 y2 eb))
    (hh2 : arch2.getHeader = .ok hd2) (hlo2 : hd2.minZoom ≤ z2) (hhi2 : z2 ≤ hd2.maxZoom)
    (hacc2 : extAccepted hd2.tileType eb = true)
    (hz2 : arch2.getZxy z2 x2 y2 = .ok (some t2))
    (hdata : t1.data = t2.data) :
    getHeaderVal (handler env1 extf arch1 e1).response.headers "ETag" =
      some ("\"" ++ extf.sha256hex t1.data ++ "\"") ∧
    getHeaderVal (handler env1 extf arch1 e1).response.headers "ETag" =
      getHeaderVal (handler env2 extf arch2 e2).response.headers "ETag" := by
  have ha := etag_of_success env1 extf arch1 e1 p1 c1 n1 z1 x1 y1 ea hd1 t1
    hp1 hq1 hh1 hlo1 hhi1 hacc1 hz1
  have hb := etag_of_success env2 extf arch2 e2 p2 c2 n2 z2 x2 y2 eb hd2 t2
    hp2 hq2 hh2 hlo2 hhi2 hacc2 hz2
  exact ⟨ha, by rw [ha, hb, hdata]⟩

/-- C9 witness: the same tile payload over Function-URL and API-Gateway
transports, under different environments, carries identical ETags. -/
theorem c9_etag_digest_witness :
    getHeaderVal (handler envBare extSample archVec evTileRaw).response.headers "ETag" =
      some ("\"" ++ extSample.sha256hex [7, 7, 7] ++ "\"") ∧
    getHeaderVal (handler envBare extSample archVec evTileRaw).response.headers "ETag" =
      getHeaderVal (handler envSample extSample archVec evTileApi).response.headers "ETag" :=
  c9_etag_digest extSample envBare envSample archVec archVec evTileRaw evTileApi
    "/demo/1/2/3.mvt" "/demo/1/2/3.mvt" false true "demo" "demo" 1 2 3 1 2 3 "mvt" "mvt"
    headerVec headerVec ⟨[7, 7, 7]⟩ ⟨[7, 7, 7]⟩
    rfl rfl rfl (by decide) (by decide) (by decide) rfl
    rfl rfl rfl (by decide) (by decide) (by decide) rfl rfl

/-- Every error response is one of the two catch-all responses. -/
theorem errResponse_shape (env : Env) (e : JsError) :
    ∃ s b, errResponse env e = makeResponse env s b [] false := by
  unfold errResponse
  split
  · exact ⟨403, "Bucket access unauthorized", rfl⟩
  · exact ⟨500, "Internal server error", rfl⟩

/-- Every response the handler produces is built by `makeResponse`
from caller headers that never itself set the CORS header. -/
theorem handler_response_shape (env : Env) (extf : ExtFns) (arch : ArchiveBehavior)
    (event : LambdaEvent) :
    ∃ s b hs i, (handler env extf arch event).response = makeResponse env s b hs i ∧
      getHeaderVal hs "Access-Control-Allow-Origin" = none := by
  unfold handler
  cases pathOf event with
  | none => exact ⟨500, "Invalid event configuration", [], false, rfl, rfl⟩
  | some pc =>
    obtain ⟨path, came⟩ := pc
    dsimp only
    cases parsePath path with
    | none => exact ⟨400, "Invalid tile URL", [], false, rfl, rfl⟩
    | some pi =>
      cases pi with
      | tilejson nm =>
        dsimp only
        unfold handleTileJson
        cases arch.getHeader with
        | error e =>
          obtain ⟨s, b, hsh⟩ := errResponse_shape env e
          exact ⟨s, b, [], false, hsh, rfl⟩
        | ok header =>
          dsimp only
          cases hostFor env event with
          | none =>
            obtain ⟨s, b, hsh⟩ := errResponse_shape env
              ⟨"Error", "No PUBLIC_HOSTNAME or x-distribution-domain-name available for TileJSON"⟩
            exact ⟨s, b, [], false, hsh, rfl⟩
          | some host =>
            exact ⟨200, _, [("Content-Type", "application/json")], false, rfl, rfl⟩
      | tile nm z2 x2 y2 ext2 =>
        dsimp only
        unfold handleTile
        cases arch.getHeader with
        | error e =>
          obtain ⟨s, b, hsh⟩ := errResponse_shape env e
          exact ⟨s, b, [], false, hsh, rfl⟩
        | ok header =>
          dsimp only
          split
          · exact ⟨404, "", [], false, rfl, rfl⟩
          · split
            · cases arch.getZxy z2 x2 y2 with
              | error e =>
                dsimp only
                obtain ⟨s, b, hsh⟩ := errResponse_shape env e
                exact ⟨s, b, [], false, hsh, rfl⟩
              | ok o =>
                cases o with
                | none => exact ⟨204, "", [], false, rfl, rfl⟩
                | some t =>
                  dsimp only
                  split
                  · refine ⟨200, _, _, true, rfl, ?_⟩
                    rw [getHeaderVal_setHeader_other _ _ _ _ (by decide),
                        getHeaderVal_cons_ne _ _ _
                          (key_ne "Content-Type" _ "Access-Control-Allow-Origin" (by decide)),
                        getHeaderVal_cons_ne _ _ _
                          (key_ne "Cache-Control" _ "Access-Control-Allow-Origin" (by decide)),
                        getHeaderVal_cons_ne _ _ _
                          (key_ne "ETag" _ "Access-Control-Allow-Origin" (by decide))]
                    rfl
                  · refine ⟨200, _, _, true, rfl, ?_⟩
                    rw [getHeaderVal_cons_ne _ _ _
                          (key_ne "Content-Type" _ "Access-Control-Allow-Origin" (by decide)),
                        getHeaderVal_cons_ne _ _ _
                          (key_ne "Cache-Control" _ "Access-Control-Allow-Origin" (by decide)),
                        getHeaderVal_cons_ne _ _ _
                          (key_ne "ETag" _ "Access-Control-Allow-Origin" (by decide))]
                    rfl
            · exact ⟨400, _, [], false, rfl, rfl⟩

/-- C10: when the CORS environment variable is configured (truthy),
every response the handler produces — success and every error status
alike — carries `Access-Control-Allow-Origin` equal to the configured
value; when it is not configured, no response carries that header. -/
theorem c10_cors (env : Env) (extf : ExtFns) (arch : ArchiveBehavior)
    (event : LambdaEvent) :
    (∀ c, truthy env.cors = some c →
      getHeaderVal (handler env extf arch event).response.headers
        "Access-Control-Allow-Origin" = some c) ∧
    (truthy env.cors = none →
      getHeaderVal (handler env extf arch event).response.headers
        "Access-Control-Allow-Origin" = none) := by
  obtain ⟨s, b, hs, i, hshape, hno⟩ := handler_response_shape env extf arch event
  constructor
  · intro c hc
    rw [hshape]
    exact getHeaderVal_makeResponse_acao_some env s b hs i c hc
  · intro hc
    rw [hshape]
    exact getHeaderVal_makeResponse_acao_none env s b hs i hc hno

/-- C10 witness: the CORS header is echoed when configured and absent
when not, at a concrete tile request. -/
theorem c10_cors_witness :
    truthy envSample.cors = some "*" ∧
    getHeaderVal (handler envSample extSample archVec evTileRaw).response.headers
      "Access-Control-Allow-Origin" = some "*" ∧
    truthy envBare.cors = none ∧
    getHeaderVal (handler envBare extSample archVec evTileRaw).response.headers
      "Access-Control-Allow-Origin" = none :=
  ⟨rfl, (c10_cors envSample extSample archVec evTileRaw).1 "*" rfl, rfl,
   (c10_cors envBare extSample archVec evTileRaw).2 rfl⟩

end PmtilesLambda

-- quick sanity examples (kept: they are plain theorems)
example : PmtilesLambda.parsePath "/a/b/10/2/3.png" =
    some (.tile "a/b" 10 2 3 "png") := by decide
example : PmtilesLambda.parsePath "/demo.json" = some (.tilejson "demo") := by decide
example : PmtilesLambda.parsePath "/a/1/2/3.json" = some (.tile "a" 1 2 3 "json") := by decide
example : PmtilesLambda.parsePath "/nope" = none := by decide
example : PmtilesLambda.parsePath "//1/2/3.png" = none := by decide
example : PmtilesLambda.parsePath "//a/1/2/3.png" = some (.tile "/a" 1 2 3 "png") := by decide
